import Mathlib

/-!
Shallow embedding of the RSI trading strategy in `src/strategies.py`
(class `RSIStrategy`), used to check the natural-language specification
against the code.  Python floats are modelled as exact rationals (ℚ);
the exchange, balance and order collaborators are modelled as an
explicit environment record, and Python exceptions raised by a
collaborator call are modelled as `Option`/`Bool` fields of that
environment.  Trading signals are the strings "BUY" / "SELL" / "HOLD",
exactly as in the source.
-/

namespace UnstableSOLBot

/-- The `RSIConfig` dataclass of `strategies.py` (lines 10-18). -/
structure RSIConfig where
  rsi_period : Nat
  oversold : ℚ
  overbought : ℚ
  stop_loss : ℚ
  take_profit : ℚ
  risk_percentage : ℚ
  ema_window : Nat
deriving DecidableEq

/-- The default field values of the `RSIConfig` dataclass:
period 14, oversold 30, overbought 70, stop loss 2 %, take profit 5 %,
risk 10 % of balance, Wilder smoothing window 14. -/
def defaultConfig : RSIConfig :=
  ⟨14, 30, 70, 2/100, 5/100, 1/10, 14⟩

/-- One OHLCV row of the DataFrame built by `fetch_data`
(the `open` column is called `bar_open` because `open` is a Lean keyword). -/
structure Bar where
  timestamp : ℚ
  bar_open : ℚ
  high : ℚ
  low : ℚ
  close : ℚ
  volume : ℚ
deriving DecidableEq

/-- The `close` column of a bar window. -/
def closesOf (bars : List Bar) : List ℚ := bars.map Bar.close

/-- The epsilon `1e-10` guarding the division in `rs = avg_gain / (avg_loss + 1e-10)`. -/
def epsilon : ℚ := 1 / 10000000000

/-- `df['close'].diff()` without its leading element: the list of
consecutive close differences `close[i] - close[i-1]` for `i ≥ 1`. -/
def diffs (closes : List ℚ) : List ℚ :=
  List.zipWith (fun b a => b - a) closes.tail closes

/-- `delta.where(delta > 0, 0.0)` pointwise: keep a positive delta, else 0. -/
def gainOf (d : ℚ) : ℚ := if 0 < d then d else 0

/-- `-delta.where(delta < 0, 0.0)` pointwise: minus a negative delta, else 0. -/
def lossOf (d : ℚ) : ℚ := if d < 0 then -d else 0

/-- The `gain` series of `_calculate_rsi_wilders`.  `diff()` puts `NaN`
at index 0 and `.where(delta > 0, 0.0)` turns that `NaN` into `0.0`,
so for a nonempty window the series starts with a literal `0`. -/
def gains (closes : List ℚ) : List ℚ :=
  match closes with
  | [] => []
  | _ :: _ => 0 :: (diffs closes).map gainOf

/-- The `loss` series of `_calculate_rsi_wilders`; like `gains`,
index 0 holds `0` coming from the `NaN` produced by `diff()`. -/
def losses (closes : List ℚ) : List ℚ :=
  match closes with
  | [] => []
  | _ :: _ => 0 :: (diffs closes).map lossOf

/-- Tail of `ewm(alpha, adjust=False).mean()`: given the previous
smoothed value `prev`, each step produces
`alpha * x + (1 - alpha) * prev`. -/
def wilderSmoothAux (alpha : ℚ) : ℚ → List ℚ → List ℚ
  | _, [] => []
  | prev, x :: xs =>
    (alpha * x + (1 - alpha) * prev) :: wilderSmoothAux alpha (alpha * x + (1 - alpha) * prev) xs

/-- `series.ewm(alpha=alpha, adjust=False).mean()`: the first output is
the first input (the seed), later outputs follow the recurrence of
`wilderSmoothAux`. -/
def wilderSmooth (alpha : ℚ) : List ℚ → List ℚ
  | [] => []
  | x :: xs => x :: wilderSmoothAux alpha x xs

/-- The `avg_gain` series: Wilder smoothing of the gains with
`alpha = 1 / config.ema_window`. -/
def avg_gain (cfg : RSIConfig) (closes : List ℚ) : List ℚ :=
  wilderSmooth (1 / (cfg.ema_window : ℚ)) (gains closes)

/-- The `avg_loss` series: Wilder smoothing of the losses with
`alpha = 1 / config.ema_window`. -/
def avg_loss (cfg : RSIConfig) (closes : List ℚ) : List ℚ :=
  wilderSmooth (1 / (cfg.ema_window : ℚ)) (losses closes)

/-- One oscillator value: `100 - 100 / (1 + g / (l + 1e-10))`. -/
def rsiOf (g l : ℚ) : ℚ := 100 - 100 / (1 + g / (l + epsilon))

/-- `RSIStrategy._calculate_rsi_wilders` (lines 61-78), as the `rsi`
column it computes from the `close` column. -/
def calculate_rsi_wilders (cfg : RSIConfig) (closes : List ℚ) : List ℚ :=
  List.zipWith rsiOf (avg_gain cfg closes) (avg_loss cfg closes)

/-- `RSIStrategy.generate_signal` (lines 80-92) on the bar window.
`df['rsi'].iloc[-1]` is modelled with `getLastD`; the code only reaches
it when `len(df) ≥ rsi_period`, and for a nonempty window `getLastD`
is exactly the last oscillator value. -/
def generate_signal (cfg : RSIConfig) (bars : List Bar) : String :=
  if bars.length < cfg.rsi_period then "HOLD"
  else
    let latest := (calculate_rsi_wilders cfg (closesOf bars)).getLastD 0
    if latest < cfg.oversold then "BUY"
    else if cfg.overbought < latest then "SELL"
    else "HOLD"

/-- `RSIStrategy._get_trade_amount` (lines 94-103).  `balance` is the
result of the free-USDT lookup (`none` when `fetch_balance` or the
dictionary access raises).  A price of exactly `0` raises
`ZeroDivisionError` inside the same `try`, which the `except` turns
into `None`; any other price divides, so a negative price yields a
negative amount. -/
def get_trade_amount (balance : Option ℚ) (price : ℚ) (cfg : RSIConfig) : Option ℚ :=
  match balance with
  | none => none
  | some free =>
    if price = 0 then none
    else some (free * cfg.risk_percentage / price)

/-- The position record `self.position` of `RSIStrategy`:
entry price, bought amount and opening timestamp. -/
structure Position where
  entry_price : ℚ
  amount : ℚ
  timestamp : ℚ
deriving DecidableEq

/-- A market-order request sent to the exchange. -/
inductive Order where
  | buy (amount : ℚ)
  | sell (amount : ℚ)
deriving DecidableEq

/-- One cycle's view of the exchange collaborator:
`ticker` is `fetch_ticker(...)['last']` (`none` when it raises),
`balance` the free USDT (`none` when the lookup raises),
`min_amount` the venue's minimum order size, the two success flags say
whether `create_market_buy_order` / `create_market_sell_order` return
normally, and `now` is `time.time()`. -/
structure ExchangeEnv where
  ticker : Option ℚ
  balance : Option ℚ
  min_amount : ℚ
  buy_succeeds : Bool
  sell_succeeds : Bool
  now : ℚ
deriving DecidableEq

/-- `RSIStrategy.execute_trade` (lines 105-158): the new position state
together with the list of market-order calls issued to the exchange.
Every raising collaborator call lands in the `except` arms, which log
and fall through, so the function always returns; the position
assignment in each branch happens after the order call, so a raising
order call leaves the position as it was while the call itself is still
recorded. -/
def execute_trade (env : ExchangeEnv) (cfg : RSIConfig) (signal : String)
    (position : Option Position) : Option Position × List Order :=
  match env.ticker with
  | none => (position, [])
  | some price =>
    match position with
    | none =>
      if signal = "BUY" then
        match get_trade_amount env.balance price cfg with
        | none => (none, [])
        | some amount =>
          if amount ≤ 0 then (none, [])
          else if amount < env.min_amount then (none, [])
          else if env.buy_succeeds then
            (some ⟨price, amount, env.now⟩, [Order.buy amount])
          else (none, [Order.buy amount])
      else (none, [])
    | some p =>
      if signal = "SELL" then
        if env.sell_succeeds then (none, [Order.sell p.amount])
        else (some p, [Order.sell p.amount])
      else (some p, [])

/-- Which exit branch of `_check_position_limits` fired in a cycle. -/
inductive ExitReason where
  | timeExpiry
  | stopLoss
  | takeProfit
deriving DecidableEq

/-- Result of one `_check_position_limits` cycle: the position after
the cycle, the order calls issued, and the exit branch taken (if any). -/
structure CheckResult where
  position : Option Position
  calls : List Order
  reason : Option ExitReason
deriving DecidableEq

/-- `RSIStrategy._check_position_limits` (lines 160-194).  With no
position, or when `fetch_ticker` raises, nothing happens.  Otherwise
the time-expiry branch (`elapsed > 14400`) runs first and returns;
then `price <= entry * (1 - stop_loss)` and, on its `elif`,
`price >= entry * (1 + take_profit)`.  Each firing branch sells via
`execute_trade "SELL"`. -/
def check_position_limits (env : ExchangeEnv) (cfg : RSIConfig)
    (position : Option Position) : CheckResult :=
  match position with
  | none => ⟨none, [], none⟩
  | some p =>
    match env.ticker with
    | none => ⟨some p, [], none⟩
    | some price =>
      let elapsed := env.now - p.timestamp
      if 14400 < elapsed then
        let r := execute_trade env cfg "SELL" (some p)
        ⟨r.1, r.2, some ExitReason.timeExpiry⟩
      else if price ≤ p.entry_price * (1 - cfg.stop_loss) then
        let r := execute_trade env cfg "SELL" (some p)
        ⟨r.1, r.2, some ExitReason.stopLoss⟩
      else if p.entry_price * (1 + cfg.take_profit) ≤ price then
        let r := execute_trade env cfg "SELL" (some p)
        ⟨r.1, r.2, some ExitReason.takeProfit⟩
      else ⟨some p, [], none⟩

/-- The DataFrame object passed to `generate_signal`: its bar rows and
its (possibly absent) `rsi` column.  Pandas column assignment mutates
the frame in place, so the caller's frame is the one that gains the
column. -/
structure Frame where
  bars : List Bar
  rsi : Option (List ℚ)
deriving DecidableEq

/-- `_calculate_rsi_wilders` at the frame level: `df['rsi'] = ...`
writes the oscillator column into the frame and returns the same
frame. -/
def calculate_rsi_wilders_frame (cfg : RSIConfig) (f : Frame) : Frame :=
  ⟨f.bars, some (calculate_rsi_wilders cfg (closesOf f.bars))⟩

/-- `generate_signal` at the frame level: the returned signal together
with the state of the caller's frame after the call (the frame itself
when the window is shorter than the period, the frame with the `rsi`
column written otherwise — `run` in `strategies.py` and the loop in
`menux.py` both read `df['rsi']` after this call). -/
def generate_signal_frame (cfg : RSIConfig) (f : Frame) : String × Frame :=
  if f.bars.length < cfg.rsi_period then ("HOLD", f)
  else
    let f2 := calculate_rsi_wilders_frame cfg f
    let latest := (f2.rsi.getD []).getLastD 0
    if latest < cfg.oversold then ("BUY", f2)
    else if cfg.overbought < latest then ("SELL", f2)
    else ("HOLD", f2)

/-- A bar whose four price fields all equal `c`, for concrete tests. -/
def flatBar (c : ℚ) : Bar := ⟨0, c, c, c, c, 0⟩

/-- A configuration equal to the default one except for `rsi_period = 2`,
so that two-bar windows already clear the minimum-length check. -/
def shortConfig : RSIConfig := ⟨2, 30, 70, 2/100, 5/100, 1/10, 14⟩

section Lemmas

/-- Pointwise property of a `zipWith`: a predicate holding at every
pair of members holds at every member of the result. -/
theorem forall_mem_zipWith {α β γ : Type} (f : α → β → γ) (P : γ → Prop) :
    ∀ (as : List α) (bs : List β),
      (∀ a ∈ as, ∀ b ∈ bs, P (f a b)) → ∀ v ∈ List.zipWith f as bs, P v := by
  intro as
  induction as with
  | nil => intro bs _ v hv; simp at hv
  | cons a as ih =>
    intro bs h v hv
    cases bs with
    | nil => simp at hv
    | cons b bs =>
      simp only [List.zipWith_cons_cons, List.mem_cons] at hv
      rcases hv with hv | hv
      · subst hv; exact h a (by simp) b (by simp)
      · exact ih bs (fun x hx y hy => h x (by simp [hx]) y (by simp [hy])) v hv

theorem wilderSmoothAux_nonneg (alpha : ℚ) (h0 : 0 ≤ alpha) (h1 : alpha ≤ 1) :
    ∀ (xs : List ℚ) (prev : ℚ), 0 ≤ prev → (∀ x ∈ xs, 0 ≤ x) →
      ∀ y ∈ wilderSmoothAux alpha prev xs, 0 ≤ y := by
  intro xs
  induction xs with
  | nil => intro prev _ _ y hy; simp [wilderSmoothAux] at hy
  | cons x xs ih =>
    intro prev hprev hxs y hy
    have hx : 0 ≤ x := hxs x (by simp)
    have hstep : 0 ≤ alpha * x + (1 - alpha) * prev := by
      have := mul_nonneg h0 hx
      have := mul_nonneg (by linarith : (0:ℚ) ≤ 1 - alpha) hprev
      linarith
    simp only [wilderSmoothAux, List.mem_cons] at hy
    rcases hy with hy | hy
    · subst hy; exact hstep
    · exact ih _ hstep (fun z hz => hxs z (by simp [hz])) y hy

theorem wilderSmooth_nonneg (alpha : ℚ) (h0 : 0 ≤ alpha) (h1 : alpha ≤ 1)
    (xs : List ℚ) (hxs : ∀ x ∈ xs, 0 ≤ x) :
    ∀ y ∈ wilderSmooth alpha xs, 0 ≤ y := by
  cases xs with
  | nil => intro y hy; simp [wilderSmooth] at hy
  | cons x xs =>
    intro y hy
    have hx : 0 ≤ x := hxs x (by simp)
    simp only [wilderSmooth, List.mem_cons] at hy
    rcases hy with hy | hy
    · subst hy; exact hx
    · exact wilderSmoothAux_nonneg alpha h0 h1 xs x hx
        (fun z hz => hxs z (by simp [hz])) y hy

theorem gains_nonneg (closes : List ℚ) : ∀ x ∈ gains closes, 0 ≤ x := by
  cases closes with
  | nil => intro x hx; simp [gains] at hx
  | cons c cs =>
    intro x hx
    simp only [gains, List.mem_cons, List.mem_map] at hx
    rcases hx with hx | ⟨d, _, hd⟩
    · simp [hx]
    · subst hd; unfold gainOf; split <;> [linarith; rfl]

theorem losses_nonneg (closes : List ℚ) : ∀ x ∈ losses closes, 0 ≤ x := by
  cases closes with
  | nil => intro x hx; simp [losses] at hx
  | cons c cs =>
    intro x hx
    simp only [losses, List.mem_cons, List.mem_map] at hx
    rcases hx with hx | ⟨d, _, hd⟩
    · simp [hx]
    · subst hd; unfold lossOf; split <;> [linarith; rfl]

theorem rsiOf_mem_Ico (g l : ℚ) (hg : 0 ≤ g) (hl : 0 ≤ l) :
    0 ≤ rsiOf g l ∧ rsiOf g l < 100 := by
  have heps : (0:ℚ) < epsilon := by norm_num [epsilon]
  have hle : 0 < l + epsilon := by linarith
  have hrs : 0 ≤ g / (l + epsilon) := div_nonneg hg (le_of_lt hle)
  have hone : (0:ℚ) < 1 + g / (l + epsilon) := by linarith
  constructor
  · have : 100 / (1 + g / (l + epsilon)) ≤ 100 / 1 := by
      apply div_le_div_of_nonneg_left (by norm_num) (by norm_num) (by linarith)
    simp only [rsiOf]; linarith [this]
  · have : 0 < 100 / (1 + g / (l + epsilon)) := div_pos (by norm_num) hone
    simp only [rsiOf]; linarith

end Lemmas

section Claims

/-- C1: `generate_signal` is exactly the threshold mapping: a window
shorter than `rsi_period` yields "HOLD"; otherwise, with `latest` the
last oscillator value, the result is "BUY" iff `latest < oversold`,
"SELL" iff `latest > overbought`, and "HOLD" iff `latest` lies in the
closed interval between the thresholds — so a value exactly equal to
either threshold yields "HOLD". -/
theorem generate_signal_threshold (cfg : RSIConfig) (bars : List Bar)
    (hth : cfg.oversold ≤ cfg.overbought) :
    (bars.length < cfg.rsi_period → generate_signal cfg bars = "HOLD") ∧
    (cfg.rsi_period ≤ bars.length → bars ≠ [] →
      ((generate_signal cfg bars = "BUY" ↔
          (calculate_rsi_wilders cfg (closesOf bars)).getLastD 0 < cfg.oversold) ∧
       (generate_signal cfg bars = "SELL" ↔
          cfg.overbought < (calculate_rsi_wilders cfg (closesOf bars)).getLastD 0) ∧
       (generate_signal cfg bars = "HOLD" ↔
          (cfg.oversold ≤ (calculate_rsi_wilders cfg (closesOf bars)).getLastD 0 ∧
           (calculate_rsi_wilders cfg (closesOf bars)).getLastD 0 ≤ cfg.overbought)))) := by
  constructor
  · intro hshort
    simp [generate_signal, hshort]
  · intro hlong _
    have hnot : ¬ bars.length < cfg.rsi_period := not_lt.mpr hlong
    simp only [generate_signal, if_neg hnot, List.getLastD_eq_getLast?]
    generalize (calculate_rsi_wilders cfg (closesOf bars)).getLast?.getD 0 = L
    rcases lt_or_le L cfg.oversold with h1 | h1
    · rw [if_pos h1]
      refine ⟨by simpa using h1, ?_, ?_⟩
      · constructor
        · intro hcon; exact absurd hcon (by simp)
        · intro hgt; exact absurd hgt (by linarith)
      · constructor
        · intro hcon; exact absurd hcon (by simp)
        · intro hc; exact absurd hc.1 (not_le.mpr h1)
    · rw [if_neg (not_lt.mpr h1)]
      rcases lt_or_le cfg.overbought L with h2 | h2
      · rw [if_pos h2]
        refine ⟨?_, by simpa using h2, ?_⟩
        · constructor
          · intro hcon; exact absurd hcon (by simp)
          · intro hlt; exact absurd hlt (not_lt.mpr h1)
        · constructor
          · intro hcon; exact absurd hcon (by simp)
          · intro hc; exact absurd h2 (not_lt.mpr hc.2)
      · rw [if_neg (not_lt.mpr h2)]
        refine ⟨?_, ?_, ?_⟩
        · constructor
          · intro hcon; exact absurd hcon (by simp)
          · intro hlt; exact absurd hlt (not_lt.mpr h1)
        · constructor
          · intro hcon; exact absurd hcon (by simp)
          · intro hgt; exact absurd hgt (not_lt.mpr h2)
        · exact ⟨fun _ => ⟨h1, h2⟩, fun _ => rfl⟩

/-- Witness for C1: on a two-bar falling window with period 2, the
oscillator's last value is 0, below the oversold threshold 30, and the
signal is "BUY"; the window is long enough and nonempty. -/
theorem generate_signal_threshold_witness :
    generate_signal shortConfig [flatBar 2, flatBar 1] = "BUY" := by
  have h := (generate_signal_threshold shortConfig [flatBar 2, flatBar 1]
    (by norm_num [shortConfig])).2 (by norm_num [shortConfig]) (by simp)
  apply h.1.mpr
  norm_num [calculate_rsi_wilders, avg_gain, avg_loss, gains, losses, diffs, gainOf,
    lossOf, wilderSmooth, wilderSmoothAux, rsiOf, epsilon, closesOf, flatBar, shortConfig]

/-- C2 counterexample: the two-bar window with closes `[2, 1]` has the
single consecutive delta `-1`, so its deltas are not all zero, yet the
oscillator is `[0, 0]` — the value `0` is not strictly between 0 and
100.  (The leading `0` of the gain series, coming from `diff()`'s
`NaN`, keeps `avg_gain` at `0` on any non-increasing window, so the
oscillator hits 0 exactly.) -/
theorem rsi_open_interval_cex :
    (¬ ∀ d ∈ diffs [(2 : ℚ), 1], d = 0) ∧
    ¬ (∀ v ∈ calculate_rsi_wilders defaultConfig [(2 : ℚ), 1], 0 < v ∧ v < 100) := by
  constructor
  · intro h
    have := h (-1) (by norm_num [diffs])
    norm_num at this
  · intro h
    have h0 : (0 : ℚ) ∈ calculate_rsi_wilders defaultConfig [(2 : ℚ), 1] := by
      have : calculate_rsi_wilders defaultConfig [(2 : ℚ), 1] = [0, 0] := by
        norm_num [calculate_rsi_wilders, avg_gain, avg_loss, gains, losses, diffs,
          gainOf, lossOf, wilderSmooth, wilderSmoothAux, rsiOf, epsilon, defaultConfig]
      rw [this]; simp
    have := (h 0 h0).1
    exact lt_irrefl 0 this

/-- C2 amended: for every configuration with a positive smoothing
window and every close series (degenerate or not), every oscillator
value lies in the half-open interval `[0, 100)`: never 100, but 0 is
attained (e.g. on any non-increasing window). -/
theorem rsi_range (cfg : RSIConfig) (hw : 1 ≤ cfg.ema_window) (closes : List ℚ) :
    ∀ v ∈ calculate_rsi_wilders cfg closes, 0 ≤ v ∧ v < 100 := by
  have hα0 : (0 : ℚ) ≤ 1 / (cfg.ema_window : ℚ) := by positivity
  have hα1 : 1 / (cfg.ema_window : ℚ) ≤ 1 := by
    have h1 : (1 : ℚ) ≤ (cfg.ema_window : ℚ) := by exact_mod_cast hw
    rw [div_le_one (by linarith)]
    exact h1
  apply forall_mem_zipWith rsiOf (fun v => 0 ≤ v ∧ v < 100)
  intro g hg l hl
  exact rsiOf_mem_Ico g l
    (wilderSmooth_nonneg _ hα0 hα1 _ (gains_nonneg closes) g hg)
    (wilderSmooth_nonneg _ hα0 hα1 _ (losses_nonneg closes) l hl)

/-- Witness for C2's amended theorem: at the default configuration
(smoothing window 14 ≥ 1) and the window `[2, 1]`, the first oscillator
value is in `[0, 100)` (it is in fact exactly 0). -/
theorem rsi_range_witness :
    0 ≤ (calculate_rsi_wilders defaultConfig [(2 : ℚ), 1]).getD 0 0 ∧
    (calculate_rsi_wilders defaultConfig [(2 : ℚ), 1]).getD 0 0 < 100 :=
  rsi_range defaultConfig (by norm_num [defaultConfig]) [(2 : ℚ), 1] _ (by
    have h : calculate_rsi_wilders defaultConfig [(2 : ℚ), 1] = [0, 0] := by
      norm_num [calculate_rsi_wilders, avg_gain, avg_loss, gains, losses, diffs,
        gainOf, lossOf, wilderSmooth, wilderSmoothAux, rsiOf, epsilon, defaultConfig]
    rw [h]
    norm_num)

/-- C3 counterexample: with a successful balance lookup of 100 USDT and
the (nonsensical but unchecked) price `-5`, `_get_trade_amount` with
the default 10 % risk returns `some (-2)`, a negative amount, not
`none` — the code never tests the sign of the price; only the exact
zero price leads to `none`, via the caught `ZeroDivisionError`. -/
theorem get_trade_amount_negative_price_cex :
    get_trade_amount (some 100) (-5) defaultConfig = some (-2) ∧ (-5 : ℚ) ≤ 0 := by
  constructor
  · norm_num [get_trade_amount, defaultConfig]
  · norm_num

/-- C3 amended: `_get_trade_amount` returns `none` exactly when the
balance lookup fails or the price is exactly zero; whenever the lookup
yields `free` and the price is nonzero (in particular whenever it is
positive) it returns `free * risk_percentage / price`, and that amount
times the price equals `free * risk_percentage` exactly.  For a
negative price the returned amount is the same quotient (negative when
the risk amount is positive), not `none`. -/
theorem get_trade_amount_contract (balance : Option ℚ) (price : ℚ) (cfg : RSIConfig) :
    (balance = none → get_trade_amount balance price cfg = none) ∧
    (price = 0 → get_trade_amount balance price cfg = none) ∧
    (∀ free, balance = some free → price ≠ 0 →
      get_trade_amount balance price cfg = some (free * cfg.risk_percentage / price) ∧
      free * cfg.risk_percentage / price * price = free * cfg.risk_percentage) := by
  refine ⟨?_, ?_, ?_⟩
  · intro hb; rw [hb]; rfl
  · intro hp
    cases balance with
    | none => rfl
    | some free => simp [get_trade_amount, hp]
  · intro free hb hp
    subst hb
    constructor
    · simp [get_trade_amount, hp]
    · exact div_mul_cancel₀ _ hp

/-- Witness for C3's amended theorem: a 100 USDT balance at price 5
sizes to `some 2`, and `2 * 5 = 10` is exactly 10 % of 100. -/
theorem get_trade_amount_contract_witness :
    get_trade_amount (some 100) 5 defaultConfig =
      some (100 * defaultConfig.risk_percentage / 5) ∧
    100 * defaultConfig.risk_percentage / 5 * 5 = 100 * defaultConfig.risk_percentage :=
  (get_trade_amount_contract (some 100) 5 defaultConfig).2.2 100 rfl (by norm_num)

/-- C4: the engine state holds at most one position by construction
(`self.position` is a single optional record), and a "BUY" signal
arriving while a position is already open performs no transition at
all: for every environment and configuration, `execute_trade` with
signal "BUY" and an existing position returns the identical position
record and issues no order call. -/
theorem buy_while_open_noop (env : ExchangeEnv) (cfg : RSIConfig) (p : Position) :
    execute_trade env cfg "BUY" (some p) = (some p, []) := by
  unfold execute_trade
  cases env.ticker with
  | none => rfl
  | some price => simp

/-- C7: order rejection is atomic.  If `create_market_buy_order`
raises, the position assignment after it never runs, so a failed BUY
from the flat state leaves the engine flat; if `create_market_sell_order`
raises, `self.position = None` never runs, so a failed SELL leaves the
existing position record intact.  (`execute_trade` is a total function
of its inputs: every collaborator failure is absorbed by its `except`
arms, never re-raised.) -/
theorem order_rejection_atomic (env : ExchangeEnv) (cfg : RSIConfig) (p : Position) :
    (env.buy_succeeds = false → (execute_trade env cfg "BUY" none).1 = none) ∧
    (env.sell_succeeds = false → (execute_trade env cfg "SELL" (some p)).1 = some p) := by
  constructor
  · intro hb
    unfold execute_trade
    cases env.ticker with
    | none => rfl
    | some price =>
      dsimp only
      rw [if_pos rfl, hb]
      cases get_trade_amount env.balance price cfg with
      | none => rfl
      | some amount =>
        dsimp only
        by_cases h1 : amount ≤ 0
        · rw [if_pos h1]
        · rw [if_neg h1]
          by_cases h2 : amount < env.min_amount
          · rw [if_pos h2]
          · rw [if_neg h2]; norm_num
  · intro hs
    unfold execute_trade
    cases env.ticker with
    | none => rfl
    | some price => rw [hs]; simp

/-- Witness for C7: in a concrete environment where both order calls
fail, a BUY attempt from flat stays flat and a SELL attempt on an open
position keeps that position. -/
theorem order_rejection_atomic_witness :
    (execute_trade ⟨some 10, some 100, 1/1000, false, false, 0⟩ defaultConfig "BUY" none).1
      = none ∧
    (execute_trade ⟨some 10, some 100, 1/1000, false, false, 0⟩ defaultConfig "SELL"
      (some ⟨10, 1, 0⟩)).1 = some ⟨10, 1, 0⟩ :=
  ⟨(order_rejection_atomic ⟨some 10, some 100, 1/1000, false, false, 0⟩ defaultConfig
      ⟨10, 1, 0⟩).1 rfl,
   (order_rejection_atomic ⟨some 10, some 100, 1/1000, false, false, 0⟩ defaultConfig
      ⟨10, 1, 0⟩).2 rfl⟩

/-- C10: the BUY branch guards the order amount.  Every market-buy call
it issues carries a strictly positive amount at least the venue minimum
(`if not amount or amount <= 0` skips `None`, zero and negative sizing
results; `if amount < market minimum` skips the rest), and whenever the
sizing result is `none`, non-positive, or below the minimum, the branch
returns with no order placed and the position still flat. -/
theorem buy_amount_guard (env : ExchangeEnv) (cfg : RSIConfig) :
    (∀ a, Order.buy a ∈ (execute_trade env cfg "BUY" none).2 →
      0 < a ∧ env.min_amount ≤ a) ∧
    (∀ price, env.ticker = some price →
      (get_trade_amount env.balance price cfg = none →
        execute_trade env cfg "BUY" none = (none, [])) ∧
      (∀ a, get_trade_amount env.balance price cfg = some a → a ≤ 0 →
        execute_trade env cfg "BUY" none = (none, [])) ∧
      (∀ a, get_trade_amount env.balance price cfg = some a → a < env.min_amount →
        execute_trade env cfg "BUY" none = (none, []))) := by
  constructor
  · intro a ha
    unfold execute_trade at ha
    cases hti : env.ticker with
    | none => rw [hti] at ha; simp at ha
    | some price =>
      rw [hti] at ha
      dsimp only at ha
      rw [if_pos rfl] at ha
      cases hta : get_trade_amount env.balance price cfg with
      | none => rw [hta] at ha; simp at ha
      | some amount =>
        rw [hta] at ha
        dsimp only at ha
        by_cases h1 : amount ≤ 0
        · rw [if_pos h1] at ha; simp at ha
        · rw [if_neg h1] at ha
          by_cases h2 : amount < env.min_amount
          · rw [if_pos h2] at ha; simp at ha
          · rw [if_neg h2] at ha
            have heq : a = amount := by
              cases hbs : env.buy_succeeds with
              | false => rw [hbs] at ha; simpa using ha
              | true => rw [hbs] at ha; simpa using ha
            subst heq
            exact ⟨not_le.mp h1, not_lt.mp h2⟩
  · intro price hti
    refine ⟨?_, ?_, ?_⟩
    · intro hta
      unfold execute_trade
      rw [hti]
      simp [hta]
    · intro a hta hle
      unfold execute_trade
      rw [hti]
      simp [hta, if_pos hle]
    · intro a hta hlt
      unfold execute_trade
      rw [hti]
      by_cases hle : a ≤ 0
      · simp [hta, if_pos hle]
      · simp [hta, if_neg hle, if_pos hlt]

/-- Witness for C10: with the ticker at price 10 but a failed balance
lookup, the sizing result is `none` and the BUY attempt places no order
and stays flat. -/
theorem buy_amount_guard_witness :
    execute_trade ⟨some 10, none, 1/1000, true, true, 0⟩ defaultConfig "BUY" none
      = (none, []) :=
  ((buy_amount_guard ⟨some 10, none, 1/1000, true, true, 0⟩ defaultConfig).2 10 rfl).1 rfl

/-- C5: `_check_position_limits` evaluates the exit conditions in the
fixed order time-expiry, then stop-loss, then take-profit, and the
first condition that holds is the only exit that fires; in particular,
when all three conditions hold at once only the time-expiry exit fires,
with exactly one sell order call. -/
theorem exit_priority (env : ExchangeEnv) (cfg : RSIConfig) (p : Position) (price : ℚ)
    (hticker : env.ticker = some price) :
    (14400 < env.now - p.timestamp →
      (check_position_limits env cfg (some p)).reason = some ExitReason.timeExpiry) ∧
    (env.now - p.timestamp ≤ 14400 → price ≤ p.entry_price * (1 - cfg.stop_loss) →
      (check_position_limits env cfg (some p)).reason = some ExitReason.stopLoss) ∧
    (env.now - p.timestamp ≤ 14400 → p.entry_price * (1 - cfg.stop_loss) < price →
      p.entry_price * (1 + cfg.take_profit) ≤ price →
      (check_position_limits env cfg (some p)).reason = some ExitReason.takeProfit) ∧
    (14400 < env.now - p.timestamp → price ≤ p.entry_price * (1 - cfg.stop_loss) →
      p.entry_price * (1 + cfg.take_profit) ≤ price →
      (check_position_limits env cfg (some p)).reason = some ExitReason.timeExpiry ∧
      (check_position_limits env cfg (some p)).calls = [Order.sell p.amount]) := by
  have hsellcalls : (execute_trade env cfg "SELL" (some p)).2 = [Order.sell p.amount] := by
    unfold execute_trade
    rw [hticker]
    dsimp only
    rw [if_pos rfl]
    cases env.sell_succeeds <;> rfl
  refine ⟨?_, ?_, ?_, ?_⟩
  · intro ht
    unfold check_position_limits
    rw [hticker]
    dsimp only
    rw [if_pos ht]
  · intro ht hsl
    unfold check_position_limits
    rw [hticker]
    dsimp only
    rw [if_neg (not_lt.mpr ht), if_pos hsl]
  · intro ht hslneg htp
    unfold check_position_limits
    rw [hticker]
    dsimp only
    rw [if_neg (not_lt.mpr ht), if_neg (not_le.mpr hslneg), if_pos htp]
  · intro ht _ _
    constructor
    · unfold check_position_limits
      rw [hticker]
      dsimp only
      rw [if_pos ht]
    · unfold check_position_limits
      rw [hticker]
      dsimp only
      rw [if_pos ht]
      exact hsellcalls

/-- Witness for C5: a position with entry price `-100` and the default
thresholds makes all three exit conditions hold at once (price `-100`
is at most the stop level `-98` and at least the take level `-105`,
and 14401 seconds have elapsed); only the time-expiry exit fires, with
one sell order. -/
theorem exit_priority_witness :
    (check_position_limits ⟨some (-100), some 100, 1/1000, true, true, 14401⟩ defaultConfig
      (some ⟨-100, 3, 0⟩)).reason = some ExitReason.timeExpiry ∧
    (check_position_limits ⟨some (-100), some 100, 1/1000, true, true, 14401⟩ defaultConfig
      (some ⟨-100, 3, 0⟩)).calls = [Order.sell 3] :=
  (exit_priority ⟨some (-100), some 100, 1/1000, true, true, 14401⟩ defaultConfig
      ⟨-100, 3, 0⟩ (-100) rfl).2.2.2
    (by norm_num) (by norm_num [defaultConfig]) (by norm_num [defaultConfig])

/-- C6: on an open position whose time exit has not expired and with a
positive entry price and positive stop-loss and take-profit fractions,
the stop-loss exit fires exactly when `price ≤ entry * (1 - stop_loss)`
and the take-profit exit fires exactly when
`price ≥ entry * (1 + take_profit)`, both boundaries inclusive (the
code compares with `<=` and `>=`). -/
theorem stop_take_profit_boundaries (env : ExchangeEnv) (cfg : RSIConfig) (p : Position)
    (price : ℚ) (hticker : env.ticker = some price)
    (htime : env.now - p.timestamp ≤ 14400)
    (hentry : 0 < p.entry_price) (hsl : 0 < cfg.stop_loss) (htp : 0 < cfg.take_profit) :
    ((check_position_limits env cfg (some p)).reason = some ExitReason.stopLoss ↔
      price ≤ p.entry_price * (1 - cfg.stop_loss)) ∧
    ((check_position_limits env cfg (some p)).reason = some ExitReason.takeProfit ↔
      p.entry_price * (1 + cfg.take_profit) ≤ price) := by
  have hlt : p.entry_price * (1 - cfg.stop_loss) < p.entry_price * (1 + cfg.take_profit) := by
    apply mul_lt_mul_of_pos_left _ hentry
    linarith
  unfold check_position_limits
  rw [hticker]
  dsimp only
  rw [if_neg (not_lt.mpr htime)]
  by_cases h1 : price ≤ p.entry_price * (1 - cfg.stop_loss)
  · rw [if_pos h1]
    refine ⟨⟨fun _ => h1, fun _ => rfl⟩, ?_⟩
    constructor
    · intro hcon
      exact absurd hcon (by simp)
    · intro hge
      exact absurd hge (not_le.mpr (lt_of_le_of_lt h1 hlt))
  · rw [if_neg h1]
    by_cases h2 : p.entry_price * (1 + cfg.take_profit) ≤ price
    · rw [if_pos h2]
      refine ⟨?_, ⟨fun _ => h2, fun _ => rfl⟩⟩
      constructor
      · intro hcon
        exact absurd hcon (by simp)
      · intro hle
        exact absurd hle h1
    · rw [if_neg h2]
      constructor
      · constructor
        · intro hcon
          exact absurd hcon (by simp)
        · intro hle
          exact absurd hle h1
      · constructor
        · intro hcon
          exact absurd hcon (by simp)
        · intro hge
          exact absurd hge h2

/-- Witness for C6, the spec's own example: entry price 100, stop loss
2 %: a current price of 97.9 fires the stop-loss exit, a current price
of 98.1 does not. -/
theorem stop_take_profit_boundaries_witness :
    (check_position_limits ⟨some (979/10), some 100, 1/1000, true, true, 0⟩ defaultConfig
      (some ⟨100, 1, 0⟩)).reason = some ExitReason.stopLoss ∧
    ¬ (check_position_limits ⟨some (981/10), some 100, 1/1000, true, true, 0⟩ defaultConfig
      (some ⟨100, 1, 0⟩)).reason = some ExitReason.stopLoss := by
  constructor
  · exact (stop_take_profit_boundaries
        ⟨some (979/10), some 100, 1/1000, true, true, 0⟩ defaultConfig ⟨100, 1, 0⟩
        (979/10) rfl (by norm_num) (by norm_num) (by norm_num [defaultConfig])
        (by norm_num [defaultConfig])).1.mpr (by norm_num [defaultConfig])
  · intro hcon
    have h := (stop_take_profit_boundaries
        ⟨some (981/10), some 100, 1/1000, true, true, 0⟩ defaultConfig ⟨100, 1, 0⟩
        (981/10) rfl (by norm_num) (by norm_num) (by norm_num [defaultConfig])
        (by norm_num [defaultConfig])).1.mp hcon
    norm_num [defaultConfig] at h

/-- The smoothing tail preserves length. -/
theorem wilderSmoothAux_length (alpha : ℚ) :
    ∀ (xs : List ℚ) (prev : ℚ), (wilderSmoothAux alpha prev xs).length = xs.length := by
  intro xs
  induction xs with
  | nil => intro prev; rfl
  | cons x xs ih => intro prev; simp [wilderSmoothAux, ih]

/-- Wilder smoothing preserves length. -/
theorem wilderSmooth_length (alpha : ℚ) (xs : List ℚ) :
    (wilderSmooth alpha xs).length = xs.length := by
  cases xs with
  | nil => rfl
  | cons x xs => simp [wilderSmooth, wilderSmoothAux_length]

theorem diffs_length (closes : List ℚ) : (diffs closes).length = closes.length - 1 := by
  cases closes with
  | nil => rfl
  | cons c cs => simp [diffs]

theorem gains_length (closes : List ℚ) : (gains closes).length = closes.length := by
  cases closes with
  | nil => rfl
  | cons c cs => simp [gains, diffs]

theorem losses_length (closes : List ℚ) : (losses closes).length = closes.length := by
  cases closes with
  | nil => rfl
  | cons c cs => simp [losses, diffs]

/-- First element and recurrence of the smoothing tail. -/
theorem wilderSmoothAux_getD (alpha : ℚ) :
    ∀ (xs : List ℚ) (prev : ℚ),
      (xs ≠ [] → (wilderSmoothAux alpha prev xs).getD 0 0 =
        alpha * xs.getD 0 0 + (1 - alpha) * prev) ∧
      (∀ i, i + 1 < xs.length →
        (wilderSmoothAux alpha prev xs).getD (i + 1) 0 =
          alpha * xs.getD (i + 1) 0 +
            (1 - alpha) * (wilderSmoothAux alpha prev xs).getD i 0) := by
  intro xs
  induction xs with
  | nil =>
    intro prev
    exact ⟨fun h => absurd rfl h, fun i hi => by simp at hi⟩
  | cons x xs ih =>
    intro prev
    constructor
    · intro _
      simp [wilderSmoothAux]
    · intro i hi
      simp only [wilderSmoothAux]
      rw [List.getD_cons_succ, List.getD_cons_succ]
      cases i with
      | zero =>
        have hne : xs ≠ [] := by
          intro hcon
          rw [hcon] at hi
          simp at hi
        rw [List.getD_cons_zero]
        exact (ih (alpha * x + (1 - alpha) * prev)).1 hne
      | succ j =>
        have hj : j + 1 < xs.length := by
          simp only [List.length_cons] at hi
          omega
        rw [List.getD_cons_succ]
        exact (ih (alpha * x + (1 - alpha) * prev)).2 j hj

/-- Seed and recurrence of Wilder smoothing: the first output is the
first input, and each later output is
`alpha * input + (1 - alpha) * previous output`. -/
theorem wilderSmooth_getD (alpha : ℚ) (xs : List ℚ) :
    (∀ x ys, xs = x :: ys → (wilderSmooth alpha xs).getD 0 0 = x) ∧
    (∀ i, i + 1 < xs.length →
      (wilderSmooth alpha xs).getD (i + 1) 0 =
        alpha * xs.getD (i + 1) 0 + (1 - alpha) * (wilderSmooth alpha xs).getD i 0) := by
  cases xs with
  | nil =>
    exact ⟨fun x ys h => absurd h (by simp), fun i hi => by simp at hi⟩
  | cons x ys =>
    constructor
    · intro a bs h
      have hx : x = a := (List.cons.injEq x ys a bs).mp h |>.1
      simp [wilderSmooth, hx]
    · intro i hi
      simp only [wilderSmooth]
      rw [List.getD_cons_succ, List.getD_cons_succ]
      cases i with
      | zero =>
        have hne : ys ≠ [] := by
          intro hcon
          rw [hcon] at hi
          simp at hi
        rw [List.getD_cons_zero]
        exact (wilderSmoothAux_getD alpha ys x).1 hne
      | succ j =>
        have hj : j + 1 < ys.length := by
          simp only [List.length_cons] at hi
          omega
        rw [List.getD_cons_succ]
        exact (wilderSmoothAux_getD alpha ys x).2 j hj

/-- C8: the oscillator output has the same length as the close series
(in particular for windows of length ≥ 2), and the smoothed gain and
loss series used inside it are the Wilder recurrence
`avg[i] = alpha * value[i] + (1 - alpha) * avg[i-1]` with
`alpha = 1 / ema_window`, seeded at `avg[0] = value[0]` with no warm-up
window. -/
theorem oscillator_length_and_recurrence (cfg : RSIConfig) (closes : List ℚ)
    (alpha : ℚ) (xs : List ℚ) :
    (calculate_rsi_wilders cfg closes).length = closes.length ∧
    (wilderSmooth alpha xs).length = xs.length ∧
    (∀ x ys, xs = x :: ys → (wilderSmooth alpha xs).getD 0 0 = x) ∧
    (∀ i, i + 1 < xs.length →
      (wilderSmooth alpha xs).getD (i + 1) 0 =
        alpha * xs.getD (i + 1) 0 + (1 - alpha) * (wilderSmooth alpha xs).getD i 0) ∧
    avg_gain cfg closes = wilderSmooth (1 / (cfg.ema_window : ℚ)) (gains closes) ∧
    avg_loss cfg closes = wilderSmooth (1 / (cfg.ema_window : ℚ)) (losses closes) := by
  refine ⟨?_, wilderSmooth_length alpha xs, (wilderSmooth_getD alpha xs).1,
    (wilderSmooth_getD alpha xs).2, rfl, rfl⟩
  simp [calculate_rsi_wilders, avg_gain, avg_loss, wilderSmooth_length,
    gains_length, losses_length]

/-- Witness for C8: on the input `[1, 3]` with `alpha = 1/2`, the seed
is the first sample `1` and the second output follows the recurrence,
`1/2 * 3 + (1 - 1/2) * 1 = 2`. -/
theorem oscillator_length_and_recurrence_witness :
    (wilderSmooth (1/2) [(1 : ℚ), 3]).getD 0 0 = 1 ∧
    (wilderSmooth (1/2) [(1 : ℚ), 3]).getD 1 0 =
      1/2 * ([(1 : ℚ), 3].getD 1 0) +
        (1 - 1/2) * (wilderSmooth (1/2) [(1 : ℚ), 3]).getD 0 0 :=
  ⟨(oscillator_length_and_recurrence defaultConfig [] (1/2) [(1 : ℚ), 3]).2.2.1
      1 [3] rfl,
   (oscillator_length_and_recurrence defaultConfig [] (1/2) [(1 : ℚ), 3]).2.2.2.1
      0 (by norm_num)⟩

/-- C9 counterexample: `generate_signal` does not leave the DataFrame
it is given unchanged — `df['rsi'] = ...` in `_calculate_rsi_wilders`
writes the oscillator column into the caller's frame (both `run` in
`strategies.py` and the trading loop in `menux.py` rely on this by
reading `df['rsi']` after the call).  Concretely, on a two-bar window
with no `rsi` column and period 2, the frame after the call differs
from the frame before it. -/
theorem generate_signal_frame_mutation_cex :
    (generate_signal_frame shortConfig ⟨[flatBar 2, flatBar 1], none⟩).2 ≠
      (⟨[flatBar 2, flatBar 1], none⟩ : Frame) := by
  have h2 : (generate_signal_frame shortConfig ⟨[flatBar 2, flatBar 1], none⟩).2.rsi =
      some (calculate_rsi_wilders shortConfig (closesOf [flatBar 2, flatBar 1])) := by
    unfold generate_signal_frame
    rw [if_neg (by norm_num [shortConfig])]
    dsimp only
    split
    · rfl
    · split
      · rfl
      · rfl
  intro hcon
  rw [hcon] at h2
  exact Option.noConfusion h2

/-- C9 amended: `generate_signal` is deterministic and a function of
the bar window and the configuration alone — the signal it returns on
a frame equals the pure signal of the frame's bars — and it never
changes the bar rows; it does, however, add the computed `rsi` column
to the input frame as a side effect (see the counterexample). -/
theorem generate_signal_pure_on_bars (cfg : RSIConfig) (f : Frame) :
    (generate_signal_frame cfg f).2.bars = f.bars ∧
    (generate_signal_frame cfg f).1 = generate_signal cfg f.bars := by
  constructor
  · by_cases h : f.bars.length < cfg.rsi_period
    · simp [generate_signal_frame, h]
    · simp only [generate_signal_frame, calculate_rsi_wilders_frame, if_neg h]
      split
      · rfl
      · split
        · rfl
        · rfl
  · by_cases h : f.bars.length < cfg.rsi_period
    · simp [generate_signal_frame, generate_signal, h]
    · simp only [generate_signal_frame, generate_signal, calculate_rsi_wilders_frame,
        if_neg h, Option.getD_some]
      split
      · rfl
      · split
        · rfl
        · rfl

end Claims

end UnstableSOLBot
